import Mathlib

/-
Verification development for the SSF toolkit model-evaluation engine.

The numerical core of the repository is embedded shallowly:
pure JavaScript arithmetic over IEEE doubles is modelled over ℚ where the
source only uses field operations, and over ℝ where the source uses
Math.sqrt / Math.exp / Math.log / Math.pow with fractional exponents.
A NaN-propagating variant (Option ℝ, none = NaN) models the JavaScript
semantics of Math.sqrt on negative arguments for the profile generator.
-/

namespace SSF

/-! ## TwoSiteKineticModel (src/src/tools/SSFModelExplorer.jsx)

The effective removal coefficient, from the `lambda` useMemo block:
site1Contribution = kAtt1 / (1 + kDet1 / muS1);
site2Contribution = kAtt2 / (1 + kDet2 / muS2);
lambda = muL + site1Contribution + site2Contribution. -/

def effectiveRemovalCoefficient (muL kAtt1 kDet1 muS1 kAtt2 kDet2 muS2 : ℚ) : ℚ :=
  muL + kAtt1 / (1 + kDet1 / muS1) + kAtt2 / (1 + kDet2 / muS2)

/-! ## MultiScaleRegressionRegistry (src/src/tools/EPSRemovalPredictor.jsx)

Parameter record consumed by the EPS regression catalog. -/

structure EPSParams where
  protein : ℚ
  carbohydrate : ℚ
  biomass : ℚ
  sdAge : ℚ
  grainSize : ℚ
  inoculated : Bool
  deriving Repr, DecidableEq

/-- Divisor used by the protein/carbohydrate ratio models:
Math.max(params.carbohydrate, 0.1). -/
def ratioDivisor (p : EPSParams) : ℚ :=
  max p.carbohydrate 0.1

/-- mini_ch4 Model A (Biochemical):
ratio = protein / Math.max(carbohydrate, 0.1); -0.17 + 2.14 * ratio. -/
def miniCh4A_calculate (p : EPSParams) : ℚ :=
  -0.17 + 2.14 * (p.protein / max p.carbohydrate 0.1)

/-- mini_ch4 Model C (Combined):
-0.22 + 1.90 * ratio + 0.34 * (inoculated ? 1 : 0). -/
def miniCh4C_calculate (p : EPSParams) : ℚ :=
  -0.22 + 1.90 * (p.protein / max p.carbohydrate 0.1) +
    0.34 * (if p.inoculated then 1 else 0)

/-- combined-scales Model A (EPS Components), whose displayed equation string
reads lambda = a0 + a1 * carbohydrate + a2 * protein with coefficients
a0 = 0.088, a1 = 2.10e-9, a2 = 0, but whose body is
0.088 + 2.10e-9 * params.biomass (biomass used as a proxy). -/
def combinedA_calculate (p : EPSParams) : ℚ :=
  0.088 + 2.10e-9 * p.biomass

/-- The value the combined Model A equation string and coefficient record
(a0 = 0.088, a1 = 2.10e-9, a2 = 0) describe, applied to the record. -/
def combinedA_labelledEquation (p : EPSParams) : ℚ :=
  0.088 + 2.10e-9 * p.carbohydrate + 0 * p.protein

/-- A concrete parameter record (the component's initial state). -/
def epsDefault : EPSParams :=
  { protein := 150, carbohydrate := 100, biomass := 1e8,
    sdAge := 90, grainSize := 0.3, inoculated := true }

/-! ### Claim theorems for the rational-arithmetic models -/

/-- C1: effectiveRemovalCoefficient computes
muL + kAtt1/(1 + kDet1/muS1) + kAtt2/(1 + kDet2/muS2) for all inputs with
muS1 > 0 and muS2 > 0, and at muL=0.1, kAtt1=50, kDet1=0.1, muS1=0.5,
kAtt2=30, kDet2=10, muS2=0.5 it returns 9071/210 ≈ 43.19 (within 0.01). -/
theorem effectiveRemoval_formula_and_scenario1
    (muL kAtt1 kDet1 muS1 kAtt2 kDet2 muS2 : ℚ)
    (h1 : 0 < muS1) (h2 : 0 < muS2) :
    effectiveRemovalCoefficient muL kAtt1 kDet1 muS1 kAtt2 kDet2 muS2 =
      muL + kAtt1 / (1 + kDet1 / muS1) + kAtt2 / (1 + kDet2 / muS2) ∧
    effectiveRemovalCoefficient 0.1 50 0.1 0.5 30 10 0.5 = 9071 / 210 ∧
    |effectiveRemovalCoefficient 0.1 50 0.1 0.5 30 10 0.5 - 43.19| < 0.01 := by
  refine ⟨rfl, by norm_num [effectiveRemovalCoefficient], ?_⟩
  rw [show effectiveRemovalCoefficient 0.1 50 0.1 0.5 30 10 0.5 = 9071 / 210 by
    norm_num [effectiveRemovalCoefficient]]
  rw [abs_lt]
  norm_num

theorem effectiveRemoval_formula_and_scenario1_witness :
    (0 : ℚ) < 0.5 ∧
    effectiveRemovalCoefficient 0.1 50 0.1 0.5 30 10 0.5 = 9071 / 210 :=
  ⟨by norm_num,
    (effectiveRemoval_formula_and_scenario1 0.1 50 0.1 0.5 30 10 0.5
      (by norm_num) (by norm_num)).2.1⟩

/-- C5: combined-scales Model A computes 0.088 + 2.10e-9 * biomass, so its
result depends only on the biomass field (records agreeing on biomass get
identical predictions, whatever their carbohydrate and protein), and at the
default record it disagrees with the value its own equation string and
coefficient record describe. -/
theorem combinedA_uses_biomass_only :
    (∀ p : EPSParams, combinedA_calculate p = 0.088 + 2.10e-9 * p.biomass) ∧
    (∀ p q : EPSParams, p.biomass = q.biomass →
      combinedA_calculate p = combinedA_calculate q) ∧
    combinedA_calculate epsDefault ≠ combinedA_labelledEquation epsDefault := by
  refine ⟨fun p => rfl, fun p q h => by simp [combinedA_calculate, h], ?_⟩
  norm_num [combinedA_calculate, combinedA_labelledEquation, epsDefault]

/-- C7: both mini-scale ratio models (A and C) divide protein by
max(carbohydrate, 0.1); for every record, including carbohydrate ≤ 0, this
divisor is at least 0.1 and hence nonzero. -/
theorem ratioDivisor_floored :
    ∀ p : EPSParams,
      0.1 ≤ ratioDivisor p ∧ ratioDivisor p ≠ 0 ∧
      miniCh4A_calculate p = -0.17 + 2.14 * (p.protein / ratioDivisor p) ∧
      miniCh4C_calculate p = -0.22 + 1.90 * (p.protein / ratioDivisor p) +
        0.34 * (if p.inoculated then 1 else 0) := by
  intro p
  have hle : (0.1 : ℚ) ≤ ratioDivisor p := le_max_right _ _
  exact ⟨hle, by positivity, rfl, rfl⟩

/-! ## ExtendedBiofilmCFT linear regression
(src/src/tools/ExtendedCFTCalculator.jsx)

Coefficients object: beta0 = 18.33, beta1 = -13.29, beta2 = -15.34,
beta3 = -10.12, beta4 = -0.11.  lambdaExtended applies them unclamped. -/

noncomputable def lambdaExtended (theta HC tau SVR : ℝ) : ℝ :=
  18.33 + (-13.29) * theta + (-15.34) * HC + (-10.12) * tau + (-0.11) * SVR

/-- removalMetrics.log10Removal = Math.max(0, lambdaExtended / Math.LN10). -/
noncomputable def log10Removal (lam : ℝ) : ℝ :=
  max 0 (lam / Real.log 10)

/-! ## TwoSiteKineticModel concentration profile
(src/src/tools/SSFModelExplorer.jsx, profileData / metrics useMemo blocks) -/

/-- discriminant = 1 + (4 * alphaL * lambda) / v. -/
noncomputable def discriminant (v alphaL lam : ℝ) : ℝ :=
  1 + 4 * alphaL * lam / v

/-- exponentCoeff = (1 - Math.sqrt(discriminant)) / (2 * alphaL),
for the case discriminant ≥ 0 where Math.sqrt is real. -/
noncomputable def exponentCoeff (v alphaL lam : ℝ) : ℝ :=
  (1 - Real.sqrt (discriminant v alphaL lam)) / (2 * alphaL)

/-- Depth of profile sample i: x = (i / numPoints) * filterDepth with
numPoints = 100. -/
noncomputable def profileDepth (filterDepth : ℝ) (i : ℕ) : ℝ :=
  ((i : ℝ) / 100) * filterDepth

/-- CoverC0 = Math.exp(exponentCoeff * x). -/
noncomputable def coverC0 (v alphaL lam x : ℝ) : ℝ :=
  Real.exp (exponentCoeff v alphaL lam * x)

/-- logRemoval = -Math.log10(CoverC0). -/
noncomputable def profileLogRemoval (v alphaL lam x : ℝ) : ℝ :=
  -(Real.log (coverC0 v alphaL lam x) / Real.log 10)

/-- metrics.totalLogRemoval = -Math.log10(Math.exp(exponentCoeff * L)). -/
noncomputable def totalLogRemoval (v alphaL lam L : ℝ) : ℝ :=
  -(Real.log (Real.exp (exponentCoeff v alphaL lam * L)) / Real.log 10)

/-- teResults.logRemoval from the Tufenkji-Elimelech component:
(3/2) * ((1 - porosity) / dcM) * (L / Math.LN10) * alpha * eta0 —
a direct formula of the shape rate * (L / ln 10). -/
noncomputable def filterScaleLogRemoval (porosity dcM L alpha eta0 : ℝ) : ℝ :=
  (3 / 2) * ((1 - porosity) / dcM) * (L / Real.log 10) * alpha * eta0

/-- Direct filterScaleLogRemoval-style formula for the two-site model:
the (positive) per-metre removal rate -exponentCoeff times L / ln 10. -/
noncomputable def directStyleLogRemoval (v alphaL lam L : ℝ) : ℝ :=
  (-(exponentCoeff v alphaL lam)) * (L / Real.log 10)

/-! ### NaN-faithful embedding of the profile generator.

JavaScript Math.sqrt returns NaN on negative input, and NaN propagates
through *, exp and log10.  A NaN-carrying value is modelled as Option ℝ
with none = NaN; profileData pushes a point per sample index with no
branch that could raise an error. -/

noncomputable def jsSqrt (x : ℝ) : Option ℝ :=
  if 0 ≤ x then some (Real.sqrt x) else none

noncomputable def exponentCoeffJS (v alphaL lam : ℝ) : Option ℝ :=
  (jsSqrt (discriminant v alphaL lam)).map (fun s => (1 - s) / (2 * alphaL))

structure ProfilePoint where
  depth : ℝ
  concentration : Option ℝ
  logRemoval : Option ℝ
  lnRatio : Option ℝ

/-- One iteration of the profileData loop body. -/
noncomputable def profilePointJS (v alphaL lam filterDepth : ℝ) (i : ℕ) :
    ProfilePoint :=
  { depth := profileDepth filterDepth i
    concentration := (exponentCoeffJS v alphaL lam).map
      (fun c => Real.exp (c * profileDepth filterDepth i) * 100)
    logRemoval := (exponentCoeffJS v alphaL lam).map
      (fun c => -(Real.log (Real.exp (c * profileDepth filterDepth i)) /
        Real.log 10))
    lnRatio := (exponentCoeffJS v alphaL lam).map
      (fun c => Real.log (Real.exp (c * profileDepth filterDepth i))) }

/-- The whole profileData array: indices 0..numPoints inclusive,
numPoints = 100; returned unconditionally (the source has no error path). -/
noncomputable def profileDataJS (v alphaL lam filterDepth : ℝ) :
    List ProfilePoint :=
  (List.range 101).map (profilePointJS v alphaL lam filterDepth)

/-! ### Claim theorems for the Extended CFT regression and the profile -/

/-- C2: lambdaExtended computes the unclamped linear regression
18.33 - 13.29·θ - 15.34·HC - 10.12·τ - 0.11·SVR; at θ=0.26, HC=0.68,
τ=1.25, SVR=0.21 its raw value is exactly -8.2297 ≈ -8.23 and negative,
while the derived presentation metric log10Removal = max(0, λ/ln 10)
clamps that negative value to 0. -/
theorem lambdaExtended_unclamped_scenario2 :
    (∀ theta HC tau SVR : ℝ, lambdaExtended theta HC tau SVR =
      18.33 - 13.29 * theta - 15.34 * HC - 10.12 * tau - 0.11 * SVR) ∧
    lambdaExtended 0.26 0.68 1.25 0.21 = -8.2297 ∧
    |lambdaExtended 0.26 0.68 1.25 0.21 - (-8.23)| < 0.01 ∧
    lambdaExtended 0.26 0.68 1.25 0.21 < 0 ∧
    log10Removal (lambdaExtended 0.26 0.68 1.25 0.21) = 0 := by
  have hval : lambdaExtended 0.26 0.68 1.25 0.21 = -8.2297 := by
    norm_num [lambdaExtended]
  have hneg : lambdaExtended 0.26 0.68 1.25 0.21 < 0 := by
    rw [hval]; norm_num
  have hlog : (0 : ℝ) < Real.log 10 := Real.log_pos (by norm_num)
  refine ⟨fun theta HC tau SVR => by unfold lambdaExtended; ring,
    hval, ?_, hneg, ?_⟩
  · rw [hval, abs_lt]; norm_num
  · have hdiv : lambdaExtended 0.26 0.68 1.25 0.21 / Real.log 10 ≤ 0 :=
      div_nonpos_of_nonpos_of_nonneg hneg.le hlog.le
    simpa [log10Removal] using max_eq_left hdiv

/-- C3: with v=0.5, alphaL=0.005, λ=-100 the discriminant 1+4·alphaL·λ/v
is -3 < 0; profileData does not fail with a domain error: it
unconditionally returns all 101 samples, every one of which carries NaN
(modelled as none) in its concentration, logRemoval and lnRatio fields —
the NaN from Math.sqrt of a negative number propagates silently. -/
theorem profileData_negative_discriminant_silent_nan :
    discriminant (1/2) (1/200) (-100) < 0 ∧
    (profileDataJS (1/2) (1/200) (-100) 1).length = 101 ∧
    ∀ p ∈ profileDataJS (1/2) (1/200) (-100) 1,
      p.concentration = none ∧ p.logRemoval = none ∧ p.lnRatio = none := by
  have hd : discriminant (1/2) (1/200) (-100) < 0 := by
    norm_num [discriminant]
  have he : exponentCoeffJS (1/2) (1/200) (-100) = none := by
    unfold exponentCoeffJS jsSqrt
    rw [if_neg (not_le.mpr hd)]
    rfl
  refine ⟨hd, by simp [profileDataJS], ?_⟩
  intro p hp
  unfold profileDataJS at hp
  obtain ⟨i, hi, rfl⟩ := List.mem_map.mp hp
  simp only [profilePointJS]
  rw [he]
  exact ⟨rfl, rfl, rfl⟩

/-- C4: evaluating the concentration profile at the final sample
(index 100, depth L) and taking -log10(C(L)/C0) agrees exactly — hence
within 1e-9 relative tolerance — with the direct
filterScaleLogRemoval-style formula rate · (L / ln 10), where the rate is
-exponentCoeff; metrics.totalLogRemoval computes the same value. -/
theorem profile_roundtrip_matches_direct (v alphaL lam L : ℝ) :
    profileLogRemoval v alphaL lam (profileDepth L 100) =
      directStyleLogRemoval v alphaL lam L ∧
    totalLogRemoval v alphaL lam L = directStyleLogRemoval v alphaL lam L ∧
    |totalLogRemoval v alphaL lam L - directStyleLogRemoval v alphaL lam L| ≤
      1e-9 * |directStyleLogRemoval v alphaL lam L| := by
  have hL : profileDepth L 100 = L := by
    unfold profileDepth; norm_num
  have h1 : profileLogRemoval v alphaL lam (profileDepth L 100) =
      directStyleLogRemoval v alphaL lam L := by
    rw [hL]
    unfold profileLogRemoval coverC0 directStyleLogRemoval
    rw [Real.log_exp]
    ring
  have h2 : totalLogRemoval v alphaL lam L =
      directStyleLogRemoval v alphaL lam L := by
    unfold totalLogRemoval directStyleLogRemoval
    rw [Real.log_exp]
    ring
  refine ⟨h1, h2, ?_⟩
  rw [h2, sub_self, abs_zero]
  positivity

/-- C10: for strictly positive v, alphaL and λ the exponent coefficient
(1 - √(1 + 4·alphaL·λ/v)) / (2·alphaL) is strictly negative; hence each
profile value C(x)/C0 = exp(coeff·x) lies in (0,1] for x ≥ 0, and the
log10 removal along the profile is non-negative and non-decreasing in
depth. -/
theorem profile_exponent_negative (v alphaL lam : ℝ)
    (hv : 0 < v) (ha : 0 < alphaL) (hl : 0 < lam) :
    exponentCoeff v alphaL lam < 0 ∧
    (∀ x : ℝ, 0 ≤ x →
      0 < coverC0 v alphaL lam x ∧ coverC0 v alphaL lam x ≤ 1) ∧
    (∀ x : ℝ, 0 ≤ x → 0 ≤ profileLogRemoval v alphaL lam x) ∧
    (∀ x y : ℝ, 0 ≤ x → x ≤ y →
      profileLogRemoval v alphaL lam x ≤ profileLogRemoval v alphaL lam y) := by
  have hdisc : 1 < discriminant v alphaL lam := by
    unfold discriminant
    have : 0 < 4 * alphaL * lam / v := by positivity
    linarith
  have hsqrt : 1 < Real.sqrt (discriminant v alphaL lam) := by
    have h := Real.sqrt_lt_sqrt (by norm_num) hdisc
    rwa [Real.sqrt_one] at h
  have hcoeff : exponentCoeff v alphaL lam < 0 := by
    unfold exponentCoeff
    apply div_neg_of_neg_of_pos (by linarith) (by positivity)
  have hlog : (0 : ℝ) < Real.log 10 := Real.log_pos (by norm_num)
  have hrem : ∀ x : ℝ, profileLogRemoval v alphaL lam x =
      -(exponentCoeff v alphaL lam) * x / Real.log 10 := by
    intro x
    unfold profileLogRemoval coverC0
    rw [Real.log_exp]
    ring
  refine ⟨hcoeff, ?_, ?_, ?_⟩
  · intro x hx
    refine ⟨Real.exp_pos _, ?_⟩
    have hcx : exponentCoeff v alphaL lam * x ≤ 0 :=
      mul_nonpos_of_nonpos_of_nonneg hcoeff.le hx
    exact Real.exp_le_one_iff.mpr hcx
  · intro x hx
    rw [hrem]
    have : 0 ≤ -(exponentCoeff v alphaL lam) * x := by nlinarith
    positivity
  · intro x y hx hxy
    rw [hrem, hrem, div_eq_mul_inv, div_eq_mul_inv]
    have hnum : -(exponentCoeff v alphaL lam) * x ≤
        -(exponentCoeff v alphaL lam) * y := by nlinarith
    exact mul_le_mul_of_nonneg_right hnum (inv_nonneg.mpr hlog.le)

theorem profile_exponent_negative_witness :
    (0 : ℝ) < 1 ∧ SSF.exponentCoeff 1 1 2 < 0 :=
  ⟨by norm_num,
    (profile_exponent_negative 1 1 2 (by norm_num) (by norm_num)
      (by norm_num)).1⟩

/-! ## SingleCollectorEfficiency Happel parameter
(src/src/tools/SSFModelExplorer.jsx, computeTE)

gamma = Math.pow(1 - f, 1/3);
As = 2 * (1 - gamma^5) / (2 - 3*gamma + 3*gamma^5 - 2*gamma^6). -/

noncomputable def happelGamma (f : ℝ) : ℝ :=
  (1 - f) ^ ((1 : ℝ) / 3)

noncomputable def happelDenom (f : ℝ) : ℝ :=
  2 - 3 * happelGamma f + 3 * (happelGamma f) ^ 5 - 2 * (happelGamma f) ^ 6

noncomputable def happelAs (f : ℝ) : ℝ :=
  2 * (1 - (happelGamma f) ^ 5) / happelDenom f

/-- The independently written Happel expression from the alternate
ExtendedCFTCalculator's classicalCFT:
As = 2*(1 - (1-f)^(5/3)) /
     (2 - 3*(1-f)^(1/3) + 3*(1-f)^(5/3) - 2*(1-f)^2). -/
noncomputable def happelAsAlt (f : ℝ) : ℝ :=
  2 * (1 - (1 - f) ^ ((5 : ℝ) / 3)) /
    (2 - 3 * (1 - f) ^ ((1 : ℝ) / 3) + 3 * (1 - f) ^ ((5 : ℝ) / 3) -
      2 * (1 - f) ^ (2 : ℕ))

/-! ## DepthResolvedLayerSplitter (src/unnamed/part_005,
LayerContributionExplorer layerContributions)

upperFraction = Math.min(0.95, 0.25 + 0.70 * (1 - Math.exp(-0.15 * ageMonths)))
with ageMonths = sdAge / 30; inocBonus = inoculated ? 0.1 : 0;
adjustedUpperFraction = Math.min(0.98, upperFraction + inocBonus). -/

noncomputable def upperFractionRaw (ageDays : ℝ) : ℝ :=
  min 0.95 (0.25 + 0.70 * (1 - Real.exp (-0.15 * (ageDays / 30))))

noncomputable def upperLayerFraction (ageDays : ℝ) (inoculated : Bool) : ℝ :=
  min 0.98 (upperFractionRaw ageDays + if inoculated then 0.1 else 0)

noncomputable def deeperLayerFraction (ageDays : ℝ) (inoculated : Bool) : ℝ :=
  1 - upperLayerFraction ageDays inoculated

/-! ### Claim theorems for the Happel parameter and the layer split -/

/-- C6: for every porosity f strictly between 0 and 1 the Happel
denominator 2 - 3γ + 3γ⁵ - 2γ⁶ with γ = (1-f)^(1/3) is strictly positive
(hence nonzero: no division by zero) and As is strictly positive. -/
theorem happelAs_positive (f : ℝ) (h0 : 0 < f) (h1 : f < 1) :
    0 < happelDenom f ∧ happelDenom f ≠ 0 ∧ 0 < happelAs f := by
  have hb0 : 0 < 1 - f := by linarith
  have hb1 : 1 - f < 1 := by linarith
  have hg0 : 0 < happelGamma f := Real.rpow_pos_of_pos hb0 _
  have hg1 : happelGamma f < 1 := Real.rpow_lt_one hb0.le hb1 (by norm_num)
  have hfac : happelDenom f = (1 - happelGamma f) ^ 3 *
      (2 + 3 * happelGamma f + 3 * (happelGamma f) ^ 2 +
        2 * (happelGamma f) ^ 3) := by
    unfold happelDenom; ring
  have hden : 0 < happelDenom f := by
    rw [hfac]
    apply mul_pos (pow_pos (by linarith) 3)
    nlinarith [pow_pos hg0 2, pow_pos hg0 3]
  have hnum : 0 < 2 * (1 - (happelGamma f) ^ 5) := by
    have : (happelGamma f) ^ 5 < 1 := pow_lt_one hg0.le hg1 (by norm_num)
    linarith
  exact ⟨hden, hden.ne.symm, div_pos hnum hden⟩

theorem happelAs_positive_witness :
    (0 : ℝ) < 999 / 1000 ∧ 0 < happelAs (999 / 1000) :=
  ⟨by norm_num,
    (happelAs_positive (999 / 1000) (by norm_num) (by norm_num)).2.2⟩

/-- C9: the two independently written Happel-parameter expressions — the
computeTE form over γ = (1-f)^(1/3) and the classicalCFT form written
directly in powers of (1-f) — coincide for every porosity f in (0,1). -/
theorem happelAs_expressions_agree (f : ℝ) (h0 : 0 < f) (h1 : f < 1) :
    happelAs f = happelAsAlt f := by
  have hb : (0 : ℝ) ≤ 1 - f := by linarith
  have h5 : (happelGamma f) ^ (5 : ℕ) = (1 - f) ^ ((5 : ℝ) / 3) := by
    unfold happelGamma
    rw [← Real.rpow_natCast ((1 - f) ^ ((1 : ℝ) / 3)) 5, ← Real.rpow_mul hb]
    norm_num
  have h6 : (happelGamma f) ^ (6 : ℕ) = (1 - f) ^ (2 : ℕ) := by
    unfold happelGamma
    rw [← Real.rpow_natCast ((1 - f) ^ ((1 : ℝ) / 3)) 6, ← Real.rpow_mul hb,
      ← Real.rpow_natCast (1 - f) 2]
    norm_num
  unfold happelAs happelAsAlt happelDenom
  rw [h5, h6]
  unfold happelGamma
  rfl

theorem happelAs_expressions_agree_witness :
    (0 : ℝ) < 1 / 2 ∧ happelAs (1 / 2) = happelAsAlt (1 / 2) :=
  ⟨by norm_num,
    happelAs_expressions_agree (1 / 2) (by norm_num) (by norm_num)⟩

/-- C8: for every non-negative age the adjusted upper-layer fraction is in
(0,1] and equals min(0.98, min(0.95, 0.25 + 0.70·(1 - exp(-0.15·ageMonths)))
+ inoculation bonus); at ageDays = 730 with inoculation the fraction is
exactly the 0.98 cap and the deeper-layer fraction exactly 0.02. -/
theorem upperLayerFraction_range_scenario4 (ageDays : ℝ) (inoculated : Bool)
    (h : 0 ≤ ageDays) :
    (0 < upperLayerFraction ageDays inoculated ∧
      upperLayerFraction ageDays inoculated ≤ 1) ∧
    upperLayerFraction ageDays inoculated =
      min 0.98
        (min 0.95 (0.25 + 0.70 * (1 - Real.exp (-0.15 * (ageDays / 30)))) +
          if inoculated then 0.1 else 0) ∧
    upperLayerFraction 730 true = 0.98 ∧
    deeperLayerFraction 730 true = 0.02 := by
  have hexp1 : Real.exp (-0.15 * (ageDays / 30)) ≤ 1 := by
    apply Real.exp_le_one_iff.mpr
    nlinarith
  have hbonus : (0 : ℝ) ≤ if inoculated then 0.1 else 0 := by
    cases inoculated <;> norm_num
  have hlow : (0.25 : ℝ) ≤ upperLayerFraction ageDays inoculated := by
    unfold upperLayerFraction upperFractionRaw
    apply le_min (by norm_num)
    have : (0.25 : ℝ) ≤
        min 0.95 (0.25 + 0.70 * (1 - Real.exp (-0.15 * (ageDays / 30)))) :=
      le_min (by norm_num) (by nlinarith)
    linarith
  have hhigh : upperLayerFraction ageDays inoculated ≤ 0.98 :=
    min_le_left _ _
  have h10 : (10 : ℝ) ≤ Real.exp 3.65 := by
    have h3 : Real.exp 3 ≤ Real.exp 3.65 := Real.exp_le_exp.mpr (by norm_num)
    have he1 : (2.7182818283 : ℝ) < Real.exp 1 := Real.exp_one_gt_d9
    have hexp3 : Real.exp 3 = Real.exp 1 ^ 3 := by
      rw [← Real.exp_nat_mul]; norm_num
    have hcube : (2.7182818283 : ℝ) ^ 3 < Real.exp 1 ^ 3 :=
      pow_lt_pow_left he1 (by norm_num) (by norm_num)
    nlinarith
  have he730 : Real.exp (-0.15 * ((730 : ℝ) / 30)) ≤ 0.1 := by
    have harg : (-0.15 : ℝ) * (730 / 30) = -3.65 := by norm_num
    rw [harg, Real.exp_neg]
    have hpos : (0 : ℝ) < 10 := by norm_num
    calc (Real.exp 3.65)⁻¹ ≤ (10 : ℝ)⁻¹ := by
          apply inv_le_inv_of_le hpos h10
      _ = 0.1 := by norm_num
  have hepos : 0 < Real.exp (-0.15 * ((730 : ℝ) / 30)) := Real.exp_pos _
  have hraw : upperFractionRaw 730 =
      0.25 + 0.70 * (1 - Real.exp (-0.15 * ((730 : ℝ) / 30))) := by
    unfold upperFractionRaw
    apply min_eq_right
    nlinarith
  have hup : upperLayerFraction 730 true = 0.98 := by
    unfold upperLayerFraction
    rw [hraw, if_pos rfl]
    apply min_eq_left
    nlinarith
  refine ⟨⟨by linarith, by linarith⟩, rfl, hup, ?_⟩
  unfold deeperLayerFraction
  rw [hup]
  norm_num

theorem upperLayerFraction_range_scenario4_witness :
    (0 : ℝ) ≤ 730 ∧ upperLayerFraction 730 true = 0.98 :=
  ⟨by norm_num,
    (upperLayerFraction_range_scenario4 730 true (by norm_num)).2.2.1⟩

end SSF
